import Mathlib

/-!
Verification of the FFmpeg-GUI controller, shallowly embedded from the Rust
sources `src/app_state.rs`, `src/enums.rs`, `src/ffmpeg_utils.rs` and
`src/main.rs`.

Conventions of the embedding:
* the filesystem is an explicit parameter `fs : List String`, the list of
  paths that exist at call time; `Path::exists` becomes membership in `fs`;
* Rust `String`/`&str` values are Lean `String`s; byte indices coincide with
  character indices because all paths handled by the program are treated as
  ASCII by the relevant code paths;
* `std::path::Path` operations (`file_stem`, `extension`, `parent`, `join`)
  are modelled for paths without trailing separators, `..`/`.` components or
  Windows prefixes, which is the shape of every path this program builds;
* `f32` fields that the claims touch are modelled as `Rat`; each use is exact
  for the values the claims mention, and the rounding of decimal formatting
  is irrelevant to every claim (only the presence of a dot matters);
* fallible Rust code becomes `Option`; shared mutable job state becomes an
  explicit `JobState` record that the modelled operations transform.
-/

namespace FfmpegGui

/-! ### Decimal numerals

`unique_path` searches candidates `stem(1)`, `stem(2)`, … indefinitely, and
its termination rests on distinct counters giving distinct file names.  We
therefore prove that `Nat.repr` is injective and that its characters are all
decimal digits (the latter also shows numeric command tokens are never flag
tokens, which begin with a dash). -/

/-- One step of reading a decimal digit string most-significant-first. -/
def digitStep (a : Nat) (c : Char) : Nat := 10 * a + (c.toNat - 48)

/-- Value of a digit string read most-significant-first, starting from `a`. -/
def valFrom (a : Nat) (ds : List Char) : Nat := ds.foldl digitStep a

theorem valFrom_append (a : Nat) (xs ys : List Char) :
    valFrom a (xs ++ ys) = valFrom (valFrom a xs) ys := by
  simp [valFrom]

theorem digitChar_toNat {m : Nat} (h : m < 10) : (Nat.digitChar m).toNat = 48 + m := by
  interval_cases m <;> rfl

theorem digitChar_isDigit {m : Nat} (h : m < 10) : (Nat.digitChar m).isDigit = true := by
  interval_cases m <;> rfl

theorem toDigitsCore_append (fuel n : Nat) (ds : List Char) :
    Nat.toDigitsCore 10 fuel n ds = Nat.toDigitsCore 10 fuel n [] ++ ds := by
  induction fuel generalizing n ds with
  | zero => simp [Nat.toDigitsCore]
  | succ fuel ih =>
    simp only [Nat.toDigitsCore]
    by_cases h : n / 10 = 0
    · simp [h]
    · simp only [h, if_false]
      rw [ih (n / 10) (Nat.digitChar (n % 10) :: ds), ih (n / 10) [Nat.digitChar (n % 10)]]
      simp

theorem valFrom_toDigitsCore (fuel : Nat) :
    ∀ n : Nat, n < fuel → valFrom 0 (Nat.toDigitsCore 10 fuel n []) = n := by
  induction fuel with
  | zero => intro n h; omega
  | succ fuel ih =>
    intro n h
    simp only [Nat.toDigitsCore]
    by_cases hd : n / 10 = 0
    · have hn : n < 10 := by omega
      simp only [hd, if_true, valFrom, List.foldl, digitStep]
      rw [digitChar_toNat (Nat.mod_lt n (by norm_num))]
      omega
    · simp only [hd, if_false]
      rw [toDigitsCore_append, valFrom_append]
      have hlt : n / 10 < fuel := by omega
      rw [ih (n / 10) hlt]
      simp only [valFrom, List.foldl, digitStep]
      rw [digitChar_toNat (Nat.mod_lt n (by omega))]
      omega

theorem valFrom_repr (n : Nat) : valFrom 0 (Nat.repr n).data = n := by
  have : (Nat.repr n).data = Nat.toDigitsCore 10 (n + 1) n [] := rfl
  rw [this]
  exact valFrom_toDigitsCore (n + 1) n (Nat.lt_succ_self n)

theorem repr_injective : Function.Injective Nat.repr := by
  intro m n h
  have hd : (Nat.repr m).data = (Nat.repr n).data := by rw [h]
  have := congrArg (valFrom 0) hd
  rwa [valFrom_repr, valFrom_repr] at this

theorem mem_toDigitsCore_isDigit (fuel : Nat) :
    ∀ (n : Nat) (ds : List Char), (∀ c ∈ ds, c.isDigit = true) →
      ∀ c ∈ Nat.toDigitsCore 10 fuel n ds, c.isDigit = true := by
  induction fuel with
  | zero => intro n ds hds; simpa [Nat.toDigitsCore] using hds
  | succ fuel ih =>
    intro n ds hds c hc
    simp only [Nat.toDigitsCore] at hc
    by_cases hd : n / 10 = 0
    · simp only [hd, if_true] at hc
      rcases List.mem_cons.mp hc with h | h
      · subst h; exact digitChar_isDigit (Nat.mod_lt n (by omega))
      · exact hds c h
    · simp only [hd, if_false] at hc
      refine ih (n / 10) (Nat.digitChar (n % 10) :: ds) ?_ c hc
      intro x hx
      rcases List.mem_cons.mp hx with h | h
      · subst h; exact digitChar_isDigit (Nat.mod_lt n (by omega))
      · exact hds x h

theorem repr_chars_isDigit (n : Nat) : ∀ c ∈ (Nat.repr n).data, c.isDigit = true := by
  have : (Nat.repr n).data = Nat.toDigitsCore 10 (n + 1) n [] := rfl
  rw [this]
  exact mem_toDigitsCore_isDigit (n + 1) n [] (by simp)

/-- A numeric token never equals a string containing a dash (all flag tokens do). -/
theorem repr_ne_of_dash {s : String} (hs : '-' ∈ s.data) (n : Nat) : s ≠ Nat.repr n := by
  intro h
  have := repr_chars_isDigit n '-' (by rw [← h]; exact hs)
  simp [Char.isDigit] at this

theorem reprk_ne_of_dash {s : String} (hs : '-' ∈ s.data) (n : Nat) :
    s ≠ Nat.repr n ++ "k" := by
  intro h
  have hmem : '-' ∈ (Nat.repr n ++ "k").data := by rw [← h]; exact hs
  rw [String.data_append] at hmem
  rcases List.mem_append.mp hmem with h1 | h1
  · have := repr_chars_isDigit n '-' h1
    simp [Char.isDigit] at this
  · simp_all [String.data]

/-! ### Path operations (model of `std::path::Path`)

These model the `Path` methods the program uses, for paths without trailing
separators, `.`/`..` components or Windows prefixes. -/

/-- Index of the last occurrence of `c` in `l`, if any (Rust `str::rfind`). -/
def rfindIdx (c : Char) (l : List Char) : Option Nat :=
  match l.reverse.findIdx? (fun x => x = c) with
  | none => none
  | some k => some (l.length - 1 - k)

/-- Component after the last separator (Rust `Path::file_name`, as chars). -/
def fileNameData (p : List Char) : List Char :=
  match rfindIdx '/' p with
  | none => p
  | some i => p.drop (i + 1)

/-- Rust `Path::parent`, as chars: `none` for `""` and `"/"`, `some ""` for a
bare file name, `some "/"` for a child of the root. -/
def parentData (p : List Char) : Option (List Char) :=
  if p = [] then none
  else
    match rfindIdx '/' p with
    | none => some []
    | some 0 => if p.length = 1 then none else some ['/']
    | some i => some (p.take i)

/-- Split a file name into stem and extension at the last dot (Rust
`Path::file_stem` / `Path::extension`): a lone leading dot is part of the
stem and yields no extension. -/
def stemExtOfName (name : List Char) : List Char × Option (List Char) :=
  match rfindIdx '.' name with
  | none => (name, none)
  | some 0 => (name, none)
  | some i => (name.take i, some (name.drop (i + 1)))

/-- Rust `Path::file_stem`. -/
def fileStem (p : String) : Option String :=
  let name := fileNameData p.data
  if name = [] then none else some (String.mk (stemExtOfName name).1)

/-- Rust `Path::extension`. -/
def extension (p : String) : Option String :=
  let name := fileNameData p.data
  if name = [] then none else (stemExtOfName name).2.map String.mk

/-- Rust `Path::parent`. -/
def parentDir (p : String) : Option String := (parentData p.data).map String.mk

/-- Rust `Path::join` with a relative file name. -/
def joinPath (dir name : String) : String :=
  if dir = "" then name
  else if dir.endsWith "/" then dir ++ name
  else dir ++ "/" ++ name

/-- Rust `str::trim`, as chars. -/
def trimData (l : List Char) : List Char :=
  ((l.dropWhile Char.isWhitespace).reverse.dropWhile Char.isWhitespace).reverse

/-! ### ffmpeg_utils.rs: `unique_path` -/

/-- The suffix-stripping step of `unique_path` (ffmpeg_utils.rs 18-25):
if the stem has a `'('`, and its last `'('` is followed by some `')'`, and
only digits stand between them, the stem is cut before that `'('` and the
remainder trimmed.  Note the source does not require the `(N)` group to sit
at the end of the stem. -/
def stripNum (stem : String) : String :=
  match rfindIdx '(' stem.data with
  | none => stem
  | some pos =>
    match (stem.data.drop pos).findIdx? (fun c => c = ')') with
    | none => stem
    | some endPos =>
      if ((stem.data.drop (pos + 1)).take (endPos - 1)).all Char.isDigit
      then String.mk (trimData (stem.data.take pos))
      else stem

/-- Candidate file name `stem(i)` / `stem(i).ext` (ffmpeg_utils.rs 30-34). -/
def candName (stem ext : String) (i : Nat) : String :=
  if ext = "" then stem ++ "(" ++ Nat.repr i ++ ")"
  else stem ++ "(" ++ Nat.repr i ++ ")" ++ "." ++ ext

/-- Candidate path `parent.join(file_name)` (ffmpeg_utils.rs 35). -/
def mkCandidate (parent stem ext : String) (i : Nat) : String :=
  joinPath parent (candName stem ext i)

theorem candName_injective (stem ext : String) :
    Function.Injective (candName stem ext) := by
  intro i j h
  apply repr_injective
  apply String.ext
  simp only [candName] at h
  by_cases he : ext = ""
  · simp only [he, if_true] at h
    have hd := congrArg String.data h
    simp only [String.data_append, List.append_assoc] at hd
    have h1 := List.append_cancel_left hd
    have h2 := List.append_cancel_left h1
    exact List.append_cancel_right h2
  · simp only [he, if_false] at h
    have hd := congrArg String.data h
    simp only [String.data_append, List.append_assoc] at hd
    have h1 := List.append_cancel_left hd
    have h2 := List.append_cancel_left h1
    exact List.append_cancel_right h2

theorem joinPath_right_injective (dir : String) : Function.Injective (joinPath dir) := by
  intro x y h
  unfold joinPath at h
  by_cases h0 : dir = ""
  · simpa [h0] using h
  · by_cases h1 : dir.endsWith "/"
    · simp only [h0, if_false, h1, if_true] at h
      have hd := congrArg String.data h
      simp only [String.data_append] at hd
      exact String.ext (List.append_cancel_left hd)
    · simp only [h0, if_false] at h
      have hb : ¬(dir.endsWith "/" = true) := by simpa using h1
      rw [if_neg hb, if_neg hb] at h
      have hd := congrArg String.data h
      simp only [String.data_append, List.append_assoc] at hd
      exact String.ext (List.append_cancel_left (List.append_cancel_left hd))

theorem mkCandidate_injective (parent stem ext : String) :
    Function.Injective (mkCandidate parent stem ext) := fun _ _ h =>
  candName_injective stem ext (joinPath_right_injective parent h)

/-- Some candidate index is always free: distinct indices give distinct
candidate paths, and the filesystem is finite. -/
theorem exists_candidate_notMem (fs : List String) (parent stem ext : String) :
    ∃ k : Nat, mkCandidate parent stem ext (k + 1) ∉ fs := by
  by_contra hall
  push_neg at hall
  have hinj : Function.Injective (fun k : Nat => mkCandidate parent stem ext (k + 1)) := by
    intro a b hab
    have := mkCandidate_injective parent stem ext hab
    omega
  have hsub : (Finset.range (fs.length + 1)).image
      (fun k => mkCandidate parent stem ext (k + 1)) ⊆ fs.toFinset := by
    intro x hx
    rcases Finset.mem_image.mp hx with ⟨k, _, rfl⟩
    exact List.mem_toFinset.mpr (hall k)
  have hcard := Finset.card_le_card hsub
  rw [Finset.card_image_of_injective _ hinj, Finset.card_range] at hcard
  have := List.toFinset_card_le fs
  omega

/-- ffmpeg_utils.rs 10-39.  If the path does not exist it is returned
unchanged; otherwise stem and extension are extracted (the source unwraps the
stem, which cannot be `None` for an existing file path; the model totalises
with `""`), the stem is stripped by `stripNum`, and candidates
`stem(1)`, `stem(2)`, … are probed.  The source loops `i = 1, 2, …` returning
the first free candidate, i.e. the candidate at the least free index, which
is what `Nat.find` yields. -/
def unique_path (fs : List String) (path : String) : String :=
  if path ∈ fs then
    let parent := (parentDir path).getD "."
    let stem := stripNum ((fileStem path).getD "")
    let ext := (extension path).getD ""
    mkCandidate parent stem ext (Nat.find (exists_candidate_notMem fs parent stem ext) + 1)
  else path

theorem unique_path_notMem (fs : List String) (path : String) :
    unique_path fs path ∉ fs := by
  by_cases h : path ∈ fs
  · simp only [unique_path, if_pos h]
    exact Nat.find_spec (exists_candidate_notMem fs _ _ _)
  · simpa [unique_path, if_neg h] using h

theorem unique_path_eq_self {fs : List String} {q : String} (h : q ∉ fs) :
    unique_path fs q = q := by
  simp [unique_path, if_neg h]

/-- C7: for every filesystem snapshot and every path, `unique_path` returns a
path that does not exist at call time, returns a non-existing path unchanged,
and is idempotent on its own output when no file is created in between. -/
theorem c7_unique_path_fresh_idempotent (fs : List String) (p : String) :
    unique_path fs p ∉ fs ∧
    (p ∉ fs → unique_path fs p = p) ∧
    unique_path fs (unique_path fs p) = unique_path fs p :=
  ⟨unique_path_notMem fs p, fun h => unique_path_eq_self h,
    unique_path_eq_self (unique_path_notMem fs p)⟩

/-- C7 witness: a path that does not exist is returned unchanged. -/
theorem c7_witness : unique_path ["x"] "y" = "y" :=
  (c7_unique_path_fresh_idempotent ["x"] "y").2.1 (by decide)

/-- Stripping rule as claim C6 states it: the parenthesized purely-numeric
suffix is stripped exactly when the stem ends with one; a stem without such a
trailing suffix is kept intact. -/
def claimStrip (stem : String) : String :=
  match rfindIdx '(' stem.data with
  | none => stem
  | some pos =>
    if stem.data.getLast? = some ')' ∧
        ((stem.data.drop (pos + 1)).dropLast).all Char.isDigit
    then String.mk (stem.data.take pos)
    else stem

/-- The uniquify behaviour claim C6 describes: identical to `unique_path`
except that the stem is stripped by the trailing-suffix-only rule. -/
def claimUnique (fs : List String) (path : String) : String :=
  if path ∈ fs then
    let parent := (parentDir path).getD "."
    let stem := claimStrip ((fileStem path).getD "")
    let ext := (extension path).getD ""
    mkCandidate parent stem ext (Nat.find (exists_candidate_notMem fs parent stem ext) + 1)
  else path

theorem unique_path_eval_one {fs : List String} {path : String} (hp : path ∈ fs)
    (h1 : mkCandidate ((parentDir path).getD ".") (stripNum ((fileStem path).getD ""))
        ((extension path).getD "") 1 ∉ fs) :
    unique_path fs path =
      mkCandidate ((parentDir path).getD ".") (stripNum ((fileStem path).getD ""))
        ((extension path).getD "") 1 := by
  simp only [unique_path, if_pos hp]
  have h0 : Nat.find (exists_candidate_notMem fs ((parentDir path).getD ".")
      (stripNum ((fileStem path).getD "")) ((extension path).getD "")) = 0 :=
    (Nat.find_eq_zero _).mpr h1
  rw [h0]

theorem claimUnique_eval_one {fs : List String} {path : String} (hp : path ∈ fs)
    (h1 : mkCandidate ((parentDir path).getD ".") (claimStrip ((fileStem path).getD ""))
        ((extension path).getD "") 1 ∉ fs) :
    claimUnique fs path =
      mkCandidate ((parentDir path).getD ".") (claimStrip ((fileStem path).getD ""))
        ((extension path).getD "") 1 := by
  simp only [claimUnique, if_pos hp]
  have h0 : Nat.find (exists_candidate_notMem fs ((parentDir path).getD ".")
      (claimStrip ((fileStem path).getD "")) ((extension path).getD "")) = 0 :=
    (Nat.find_eq_zero _).mpr h1
  rw [h0]

/-- C6 counterexample: for the existing path `a(2)b.mp4`, whose stem does not
end with a parenthesized numeric suffix, the source still strips from the last
`'('` (the group need not be trailing), yielding `a(1).mp4`, while the claim
mandates the stem be kept intact, i.e. `a(2)b(1).mp4`. -/
theorem c6_counterexample :
    unique_path ["a(2)b.mp4"] "a(2)b.mp4" = "a(1).mp4" ∧
    claimUnique ["a(2)b.mp4"] "a(2)b.mp4" = "a(2)b(1).mp4" ∧
    unique_path ["a(2)b.mp4"] "a(2)b.mp4" ≠ claimUnique ["a(2)b.mp4"] "a(2)b.mp4" := by
  have h1 : unique_path ["a(2)b.mp4"] "a(2)b.mp4" = "a(1).mp4" := by
    rw [unique_path_eval_one (by decide) (by decide)]
    decide
  have h2 : claimUnique ["a(2)b.mp4"] "a(2)b.mp4" = "a(2)b(1).mp4" := by
    rw [claimUnique_eval_one (by decide) (by decide)]
    decide
  exact ⟨h1, h2, by rw [h1, h2]; decide⟩

/-- C6 amended: for every path that exists, `unique_path` extracts stem and
extension, strips the stem by the source rule (cut before the last `'('`
whenever some later `')'` encloses only digits with it — not only when the
group is a trailing suffix — and trim the remainder), and returns the
candidate `base(i)` with the original extension for the smallest counter
`i ≥ 1` whose candidate does not exist. -/
theorem c6_amended_unique_path_shape (fs : List String) (path : String) (hp : path ∈ fs) :
    ∃ i : Nat, 1 ≤ i ∧
      unique_path fs path =
        mkCandidate ((parentDir path).getD ".") (stripNum ((fileStem path).getD ""))
          ((extension path).getD "") i ∧
      unique_path fs path ∉ fs ∧
      ∀ j : Nat, 1 ≤ j → j < i →
        mkCandidate ((parentDir path).getD ".") (stripNum ((fileStem path).getD ""))
          ((extension path).getD "") j ∈ fs := by
  refine ⟨Nat.find (exists_candidate_notMem fs ((parentDir path).getD ".")
      (stripNum ((fileStem path).getD "")) ((extension path).getD "")) + 1,
    by omega, ?_, unique_path_notMem fs path, ?_⟩
  · simp only [unique_path, if_pos hp]
  · intro j h1 h2
    have hj : j - 1 < Nat.find (exists_candidate_notMem fs ((parentDir path).getD ".")
        (stripNum ((fileStem path).getD "")) ((extension path).getD "")) := by omega
    have hmin := Nat.find_min (exists_candidate_notMem fs ((parentDir path).getD ".")
        (stripNum ((fileStem path).getD "")) ((extension path).getD "")) hj
    have hjj : j - 1 + 1 = j := by omega
    rw [hjj] at hmin
    exact not_not.mp hmin

/-- C6 amended witness: instantiates the amended theorem on the claim's own
example, `clip(2).mp4` alongside an existing `clip.mp4`. -/
theorem c6_amended_witness :
    ∃ i : Nat, 1 ≤ i ∧
      unique_path ["clip(2).mp4", "clip.mp4"] "clip(2).mp4" =
        mkCandidate ((parentDir "clip(2).mp4").getD ".")
          (stripNum ((fileStem "clip(2).mp4").getD ""))
          ((extension "clip(2).mp4").getD "") i ∧
      unique_path ["clip(2).mp4", "clip.mp4"] "clip(2).mp4" ∉ ["clip(2).mp4", "clip.mp4"] ∧
      ∀ j : Nat, 1 ≤ j → j < i →
        mkCandidate ((parentDir "clip(2).mp4").getD ".")
          (stripNum ((fileStem "clip(2).mp4").getD ""))
          ((extension "clip(2).mp4").getD "") j ∈ ["clip(2).mp4", "clip.mp4"] :=
  c6_amended_unique_path_shape ["clip(2).mp4", "clip.mp4"] "clip(2).mp4" (by decide)

/-! ### enums.rs -/

/-- enums.rs 4-8. -/
inductive FunctionType
  | ExtractAudio
  | CompressVideo
  | ConvertToMp4
deriving DecidableEq

/-- enums.rs 41-47. -/
inductive AudioFormat
  | MP3
  | WAV
  | FLAC
  | AAC
  | OPUS
deriving DecidableEq

/-- enums.rs 101. -/
inductive FrameRateMode
  | CFR
  | VFR
deriving DecidableEq

/-- enums.rs 105. -/
inductive OutputFormat
  | Mp4
  | Mkv
deriving DecidableEq

/-- enums.rs 57-65. -/
def AudioFormat.ext : AudioFormat → String
  | .MP3 => "mp3"
  | .WAV => "wav"
  | .FLAC => "flac"
  | .AAC => "m4a"
  | .OPUS => "opus"

/-- enums.rs 108-113. -/
def OutputFormat.ext : OutputFormat → String
  | .Mp4 => "mp4"
  | .Mkv => "mkv"

/-! ### app_state.rs: configuration snapshot and the command builder -/

/-- The configuration fields of `MyApp` (app_state.rs 7-39) that
`default_output`, `update_command` and `build_command` read. The shared
runtime fields (`output_log`, `progress`, `running`, `child`, `duration`) are
modelled separately as `JobState`; `last_command`, `original_fps` and
`auto_scroll` are presentation-only. `u8`/`u32` fields become `Nat`, the
`f32` frame rate becomes `Rat`. -/
structure MyApp where
  input_path : String
  output_path : String
  selected_function : FunctionType
  output_format : OutputFormat
  audio_format : AudioFormat
  crf : Nat
  video_bitrate : Nat
  framerate_mode : FrameRateMode
  use_crf : Bool
  encoding_preset : String
  frame_rate : Rat
  audio_bitrate : Nat
  audio_quality : Nat
  use_audio_quality : Bool
deriving DecidableEq

/-- Left-pad to three digits, for the fractional part of `{:.3}`. -/
def pad3 (k : Nat) : String :=
  if k < 10 then "00" ++ Nat.repr k
  else if k < 100 then "0" ++ Nat.repr k
  else Nat.repr k

/-- Rust `format!("{:.3}", x)`: fixed three-decimal formatting. The exact
rounding of the scaled value is irrelevant to every claim (only the shape of
the token matters: optional sign, digits, a dot, three digits). -/
def fmt3 (r : Rat) : String :=
  let m : Nat := (round (|r| * 1000)).toNat
  (if r < 0 then "-" else "") ++ Nat.repr (m / 1000) ++ "." ++ pad3 (m % 1000)

/-- app_state.rs 71-94: derive the default output path from the input path,
the selected function and the selected format, then uniquify it. -/
def default_output (fs : List String) (c : MyApp) : String :=
  match fileStem c.input_path with
  | none => ""
  | some stem =>
    let dir := (parentDir c.input_path).getD "."
    let suffix :=
      match c.selected_function with
      | .ExtractAudio => stem ++ "-Audio." ++ c.audio_format.ext
      | .CompressVideo => stem ++ "-Compressed." ++ c.output_format.ext
      | .ConvertToMp4 => stem ++ "-Converted." ++ c.output_format.ext
    unique_path fs (joinPath dir suffix)

/-- app_state.rs 131-135: the output token of `build_command`. -/
def effOutput (fs : List String) (c : MyApp) : String :=
  if c.output_path = "" then default_output fs c else c.output_path

/-- The audio block of the extract-audio branch (app_state.rs 150-207),
including the leading codec-selection flag. -/
def audioArgsExtract (c : MyApp) : List String :=
  match c.audio_format with
  | .MP3 => ["-c:a", "libmp3lame"] ++
      (if c.use_audio_quality then ["-q:a", Nat.repr c.audio_quality]
       else ["-b:a", Nat.repr c.audio_bitrate ++ "k"])
  | .OPUS => ["-c:a", "libopus", "-b:a", Nat.repr c.audio_bitrate ++ "k",
      "-strict", "experimental"]
  | .AAC => ["-c:a", "aac", "-b:a", Nat.repr c.audio_bitrate ++ "k",
      "-strict", "experimental"]
  | .FLAC => ["-c:a", "flac", "-compression_level", Nat.repr c.audio_quality]
  | .WAV => ["-c:a", "pcm_s16le", "-ar", "44100"]

/-- The per-codec tail of the compress-video audio block (app_state.rs
264-318); the source pushes `-c:a` separately just before it (259-261). -/
def audioArgsCompress (c : MyApp) : List String :=
  match c.audio_format with
  | .MP3 => ["libmp3lame"] ++
      (if c.use_audio_quality then ["-q:a", Nat.repr c.audio_quality]
       else ["-b:a", Nat.repr c.audio_bitrate ++ "k"])
  | .OPUS => ["libopus", "-b:a", Nat.repr c.audio_bitrate ++ "k",
      "-compression_level", Nat.repr c.audio_quality, "-strict", "experimental"]
  | .AAC => ["aac", "-b:a", Nat.repr c.audio_bitrate ++ "k",
      "-strict", "experimental"]
  | .FLAC => ["flac", "-compression_level", Nat.repr c.audio_quality,
      "-strict", "experimental"]
  | .WAV => ["pcm_s16le", "-ar", "44100"]

/-- app_state.rs 129-343: the ordered ffmpeg argument vector. The inline
per-codec audio matches of the source are the two functions above. -/
def build_command (fs : List String) (c : MyApp) : List String :=
  let output := effOutput fs c
  ["-i", c.input_path] ++
  (match c.selected_function with
   | .ExtractAudio =>
       ["-vn", "-sn", "-map", "0:a"] ++ audioArgsExtract c ++ ["-y", output]
   | .CompressVideo =>
       ["-map", "0", "-c:v", "libx264"] ++
       (if c.use_crf = true ∧ c.framerate_mode = .CFR
        then ["-crf", Nat.repr c.crf]
        else ["-b:v", Nat.repr c.video_bitrate ++ "k"]) ++
       ["-preset", c.encoding_preset] ++
       (if c.framerate_mode = .CFR
        then ["-r", fmt3 c.frame_rate]
        else ["-vsync", "vfr"]) ++
       ["-c:a"] ++ audioArgsCompress c ++
       ["-c:s", "copy", "-y", output]
   | .ConvertToMp4 => ["-map", "0", "-c", "copy", "-y", output])

/-! ### Claim C2: purity of `build_command` -/

/-- The `Default::default()` configuration (app_state.rs 41-68) with the
input path set to `a.mp4` and no output path chosen yet. -/
def cfgDefaultInput : MyApp :=
  { input_path := "a.mp4"
    output_path := ""
    selected_function := .ExtractAudio
    output_format := .Mp4
    audio_format := .MP3
    crf := 28
    video_bitrate := 2000
    framerate_mode := .CFR
    use_crf := true
    encoding_preset := "medium"
    frame_rate := 30
    audio_bitrate := 192
    audio_quality := 4
    use_audio_quality := true }

/-- C2 counterexample: with an empty output path, `build_command` consults the
filesystem (via `default_output` and `unique_path`), so two calls with
identical configuration fields differ across filesystem states: when
`a-Audio.mp3` already exists the output token becomes `a-Audio(1).mp3`. -/
theorem c2_counterexample :
    build_command [] cfgDefaultInput ≠ build_command ["a-Audio.mp3"] cfgDefaultInput := by
  have hu : unique_path ["a-Audio.mp3"] "a-Audio.mp3" = "a-Audio(1).mp3" := by
    rw [unique_path_eval_one (by decide) (by decide)]
    decide
  have he : effOutput ["a-Audio.mp3"] cfgDefaultInput = "a-Audio(1).mp3" := by
    show unique_path ["a-Audio.mp3"] "a-Audio.mp3" = "a-Audio(1).mp3"
    exact hu
  have e2 : build_command ["a-Audio.mp3"] cfgDefaultInput =
      ["-i", "a.mp4", "-vn", "-sn", "-map", "0:a", "-c:a", "libmp3lame",
       "-q:a", "4", "-y", effOutput ["a-Audio.mp3"] cfgDefaultInput] := rfl
  have e1 : build_command [] cfgDefaultInput =
      ["-i", "a.mp4", "-vn", "-sn", "-map", "0:a", "-c:a", "libmp3lame",
       "-q:a", "4", "-y", "a-Audio.mp3"] := by decide
  rw [e1, e2, he]
  decide

/-- C2 amended: `build_command` is a pure, deterministic function of the
configuration snapshot and the filesystem snapshot; it is independent of the
filesystem whenever the output path field is nonempty. (When the output path
is empty it derives a default output via `default_output`/`unique_path`,
which probe the filesystem.) -/
theorem c2_amended_pure_given_output (fs1 fs2 : List String) (c : MyApp)
    (h : c.output_path ≠ "") :
    build_command fs1 c = build_command fs2 c := by
  simp only [build_command, effOutput, if_neg h]

/-- C2 amended witness. -/
theorem c2_amended_witness :
    build_command [] { cfgDefaultInput with output_path := "out.mp3" } =
      build_command ["a-Audio.mp3"] { cfgDefaultInput with output_path := "out.mp3" } :=
  c2_amended_pure_given_output [] ["a-Audio.mp3"] _ (by decide)

/-! ### Claim C4: the compress-video audio block versus the extract-audio one -/

/-- The default configuration with the OPUS codec selected. -/
def cfgOpus : MyApp := { cfgDefaultInput with audio_format := .OPUS }

/-- C4 counterexample: for OPUS the compress-video audio block is not the
extract-audio block (the FLAC experimental-flag asymmetry being the claimed
single exception): compress-video additionally emits
`-compression_level <quality>`. -/
theorem c4_counterexample :
    ¬ (["-c:a"] ++ audioArgsCompress cfgOpus =
        audioArgsExtract cfgOpus ++
          (if cfgOpus.audio_format = AudioFormat.FLAC
           then ["-strict", "experimental"] else [])) := by
  decide

/-- C4 amended: the audio blocks of the two branches coincide per codec and
mode, with two exceptions: FLAC's compress-video block appends the
experimental-feature flag, and OPUS's compress-video block additionally
inserts `-compression_level <quality>` before the experimental-feature flag.
The first two conjuncts tie the blocks to `build_command` itself. -/
theorem c4_amended_audio_blocks (fs : List String) (c : MyApp) :
    (c.selected_function = .ExtractAudio →
      build_command fs c = ["-i", c.input_path, "-vn", "-sn", "-map", "0:a"] ++
        audioArgsExtract c ++ ["-y", effOutput fs c]) ∧
    (c.selected_function = .CompressVideo →
      build_command fs c = ["-i", c.input_path, "-map", "0", "-c:v", "libx264"] ++
        (if c.use_crf = true ∧ c.framerate_mode = .CFR
         then ["-crf", Nat.repr c.crf]
         else ["-b:v", Nat.repr c.video_bitrate ++ "k"]) ++
        ["-preset", c.encoding_preset] ++
        (if c.framerate_mode = .CFR
         then ["-r", fmt3 c.frame_rate]
         else ["-vsync", "vfr"]) ++
        ["-c:a"] ++ audioArgsCompress c ++ ["-c:s", "copy", "-y", effOutput fs c]) ∧
    (c.audio_format = .FLAC →
      ["-c:a"] ++ audioArgsCompress c = audioArgsExtract c ++ ["-strict", "experimental"]) ∧
    (c.audio_format = .OPUS →
      ["-c:a"] ++ audioArgsCompress c =
        (audioArgsExtract c).take 4 ++ ["-compression_level", Nat.repr c.audio_quality] ++
          (audioArgsExtract c).drop 4) ∧
    (c.audio_format ≠ .FLAC → c.audio_format ≠ .OPUS →
      ["-c:a"] ++ audioArgsCompress c = audioArgsExtract c) := by
  refine ⟨fun h => ?_, fun h => ?_, fun h => ?_, fun h => ?_, fun h1 h2 => ?_⟩
  · simp [build_command, h]
  · simp [build_command, h]
  · simp [audioArgsExtract, audioArgsCompress, h]
  · simp [audioArgsExtract, audioArgsCompress, h]
  · cases hf : c.audio_format <;> simp_all [audioArgsExtract, audioArgsCompress]

/-- C4 amended witness: the OPUS insertion rule and the extract decomposition
at a concrete configuration. -/
theorem c4_amended_witness :
    build_command [] cfgOpus = ["-i", cfgOpus.input_path, "-vn", "-sn", "-map", "0:a"] ++
      audioArgsExtract cfgOpus ++ ["-y", effOutput [] cfgOpus] ∧
    ["-c:a"] ++ audioArgsCompress cfgOpus =
      (audioArgsExtract cfgOpus).take 4 ++
        ["-compression_level", Nat.repr cfgOpus.audio_quality] ++
        (audioArgsExtract cfgOpus).drop 4 :=
  ⟨(c4_amended_audio_blocks [] cfgOpus).1 (by decide),
   (c4_amended_audio_blocks [] cfgOpus).2.2.2.1 (by decide)⟩

/-! ### Numeric command tokens are never flag tokens

Flag tokens begin with a dash; tokens produced from the numeric
configuration fields consist of digits, possibly a trailing `k`, or contain
a dot (the fixed-precision frame rate). -/

@[simp] theorem qa_ne_repr (n : Nat) : ("-q:a" = Nat.repr n) = False :=
  eq_false (repr_ne_of_dash (by decide) n)

@[simp] theorem ba_ne_repr (n : Nat) : ("-b:a" = Nat.repr n) = False :=
  eq_false (repr_ne_of_dash (by decide) n)

@[simp] theorem crf_ne_repr (n : Nat) : ("-crf" = Nat.repr n) = False :=
  eq_false (repr_ne_of_dash (by decide) n)

@[simp] theorem bv_ne_repr (n : Nat) : ("-b:v" = Nat.repr n) = False :=
  eq_false (repr_ne_of_dash (by decide) n)

@[simp] theorem qa_ne_reprk (n : Nat) : ("-q:a" = Nat.repr n ++ "k") = False :=
  eq_false (reprk_ne_of_dash (by decide) n)

@[simp] theorem ba_ne_reprk (n : Nat) : ("-b:a" = Nat.repr n ++ "k") = False :=
  eq_false (reprk_ne_of_dash (by decide) n)

@[simp] theorem crf_ne_reprk (n : Nat) : ("-crf" = Nat.repr n ++ "k") = False :=
  eq_false (reprk_ne_of_dash (by decide) n)

@[simp] theorem bv_ne_reprk (n : Nat) : ("-b:v" = Nat.repr n ++ "k") = False :=
  eq_false (reprk_ne_of_dash (by decide) n)

theorem fmt3_has_dot (r : Rat) : '.' ∈ (fmt3 r).data := by
  simp [fmt3, String.data_append]

@[simp] theorem qa_ne_fmt3 (r : Rat) : ("-q:a" = fmt3 r) = False := by
  refine eq_false fun h => ?_
  have hd := fmt3_has_dot r
  rw [← h] at hd
  exact absurd hd (by decide)

@[simp] theorem ba_ne_fmt3 (r : Rat) : ("-b:a" = fmt3 r) = False := by
  refine eq_false fun h => ?_
  have hd := fmt3_has_dot r
  rw [← h] at hd
  exact absurd hd (by decide)

@[simp] theorem crf_ne_fmt3 (r : Rat) : ("-crf" = fmt3 r) = False := by
  refine eq_false fun h => ?_
  have hd := fmt3_has_dot r
  rw [← h] at hd
  exact absurd hd (by decide)

@[simp] theorem bv_ne_fmt3 (r : Rat) : ("-b:v" = fmt3 r) = False := by
  refine eq_false fun h => ?_
  have hd := fmt3_has_dot r
  rw [← h] at hd
  exact absurd hd (by decide)

/-! ### Claim C1: no audio quality flag together with an audio bitrate flag -/

/-- C1: for both the extract-audio and compress-video operation kinds and all
five audio codecs, the built command never contains both the audio
quality-level flag `-q:a` and the audio bitrate flag `-b:a`. The three
disequality hypotheses only rule out the free-form string fields (input
path, effective output path, encoding preset) being literally those flag
tokens. -/
theorem c1_no_dual_audio_rate_flags (fs : List String) (c : MyApp)
    (hf : c.selected_function = .ExtractAudio ∨ c.selected_function = .CompressVideo)
    (hin : c.input_path ≠ "-q:a" ∧ c.input_path ≠ "-b:a")
    (hout : effOutput fs c ≠ "-q:a" ∧ effOutput fs c ≠ "-b:a")
    (hpre : c.encoding_preset ≠ "-q:a" ∧ c.encoding_preset ≠ "-b:a") :
    ¬ ("-q:a" ∈ build_command fs c ∧ "-b:a" ∈ build_command fs c) := by
  obtain ⟨hi1, hi2⟩ := hin
  obtain ⟨ho1, ho2⟩ := hout
  obtain ⟨hp1, hp2⟩ := hpre
  rcases hf with hf | hf <;>
    cases ha : c.audio_format <;>
    cases hq : c.use_audio_quality <;>
    cases hc : c.use_crf <;>
    cases hm : c.framerate_mode <;>
    simp_all [build_command, audioArgsExtract, audioArgsCompress,
      Ne.symm hi1, Ne.symm hi2, Ne.symm ho1, Ne.symm ho2, Ne.symm hp1, Ne.symm hp2]

/-- C1 witness: extract-audio, MP3, VBR mode. -/
theorem c1_witness :
    ¬ ("-q:a" ∈ build_command [] { cfgDefaultInput with output_path := "out.mp3" } ∧
        "-b:a" ∈ build_command [] { cfgDefaultInput with output_path := "out.mp3" }) :=
  c1_no_dual_audio_rate_flags [] _ (Or.inl rfl)
    ⟨by decide, by decide⟩ ⟨by decide, by decide⟩ ⟨by decide, by decide⟩

/-! ### Claim C5: exactly one video-quality flag in compress-video -/

/-- C5: for every compress-video configuration the command contains `-crf`
and omits `-b:v` exactly when CRF mode is selected and the frame-rate mode is
constant; otherwise it contains `-b:v` and omits `-crf`. The disequality
hypotheses only rule out the free-form string fields being literally those
flag tokens. -/
theorem c5_exactly_one_video_quality_flag (fs : List String) (c : MyApp)
    (hf : c.selected_function = .CompressVideo)
    (hin : c.input_path ≠ "-crf" ∧ c.input_path ≠ "-b:v")
    (hout : effOutput fs c ≠ "-crf" ∧ effOutput fs c ≠ "-b:v")
    (hpre : c.encoding_preset ≠ "-crf" ∧ c.encoding_preset ≠ "-b:v") :
    (("-crf" ∈ build_command fs c ∧ "-b:v" ∉ build_command fs c) ↔
      (c.use_crf = true ∧ c.framerate_mode = .CFR)) ∧
    (¬ (c.use_crf = true ∧ c.framerate_mode = .CFR) →
      ("-b:v" ∈ build_command fs c ∧ "-crf" ∉ build_command fs c)) := by
  obtain ⟨hi1, hi2⟩ := hin
  obtain ⟨ho1, ho2⟩ := hout
  obtain ⟨hp1, hp2⟩ := hpre
  cases ha : c.audio_format <;>
    cases hq : c.use_audio_quality <;>
    cases hc : c.use_crf <;>
    cases hm : c.framerate_mode <;>
    simp_all [build_command, audioArgsExtract, audioArgsCompress,
      Ne.symm hi1, Ne.symm hi2, Ne.symm ho1, Ne.symm ho2, Ne.symm hp1, Ne.symm hp2]

/-- The default configuration switched to compress-video with a chosen
output path. -/
def cfgCompress : MyApp :=
  { cfgDefaultInput with selected_function := .CompressVideo, output_path := "out.mp4" }

/-- C5 witness: CRF mode with constant frame rate yields `-crf` and no
`-b:v`. -/
theorem c5_witness :
    "-crf" ∈ build_command [] cfgCompress ∧ "-b:v" ∉ build_command [] cfgCompress :=
  (c5_exactly_one_video_quality_flag [] cfgCompress rfl
    ⟨by decide, by decide⟩ ⟨by decide, by decide⟩ ⟨by decide, by decide⟩).1.mpr ⟨rfl, rfl⟩

/-! ### main.rs: shared job state, the worker thread, cancel and probe -/

/-- The shared runtime fields of `MyApp` (app_state.rs 33-36): the textual
log, the progress fraction, the running flag and the process handle (present
or absent; the handle itself carries no data the claims need). -/
structure JobState where
  log : String
  progress : Rat
  running : Bool
  child : Option Unit
deriving DecidableEq

/-- The mutations `MyApp::run` performs after validation succeeds and before
spawning the worker thread (main.rs 80-105): set `running` true, zero the
progress, clear the log, log the output destination, clear any stale child
handle. -/
def startJobState (outPath : String) (s : JobState) : JobState :=
  { s with running := true, progress := 0,
           log := "Outputting to: " ++ outPath ++ "\n",
           child := none }

/-- Outcome of the worker thread: it either runs to completion or dies from a
panic, leaving the shared state as it stood at the panic site. -/
inductive ThreadOutcome
  | finished (s : JobState)
  | panicked (s : JobState)
deriving DecidableEq

/-- The worker-thread body spawned by `MyApp::run` (main.rs 108-180).
`spawnOk` models whether `Command::new("ffmpeg").spawn()` succeeded,
`stderrOk` whether `child.stderr.take()` returned `Some`, `exitOk` the
process exit status, and `statusText` its display text; the reader thread's
per-line progress updates are elided (no claim depends on them). On spawn
failure the source calls `.expect("Failed to spawn ffmpeg process")`, which
panics the worker thread: nothing is appended to the job log and the tail
that resets `running` and forces progress to 1 never runs. -/
def runThreadBody (spawnOk stderrOk exitOk : Bool) (cmdLine outPath statusText : String)
    (s : JobState) : ThreadOutcome :=
  let s1 := { s with log := s.log ++ "Executing: ffmpeg " ++ cmdLine ++ "\n" }
  if spawnOk then
    let s2 :=
      if stderrOk then
        { s1 with
          log := s1.log ++ "FFmpeg finished with status: " ++ statusText ++ "\n" ++
            (if exitOk then "Output successfully saved to " ++ outPath ++ "\n"
             else "FFmpeg command failed.\n"),
          child := none }
      else { s1 with log := s1.log ++ "Failed to capture FFmpeg output.\n" }
    ThreadOutcome.finished { s2 with running := false, progress := 1 }
  else ThreadOutcome.panicked s1

/-- C3: when spawning ffmpeg fails, the worker thread panics instead of
catching and logging the failure, and the state it leaves behind has
`running` still true and no failure line in the log — the spawn failure is
not confined to the job attempt and `running` is left stuck. This evaluates
the modelled code at the failing input (spawn returns an error because the
ffmpeg executable is missing or unlaunchable). -/
theorem c3_spawn_failure_panics_running_stuck (s : JobState) (stderrOk exitOk : Bool)
    (cmdLine outPath statusText : String) :
    runThreadBody false stderrOk exitOk cmdLine outPath statusText (startJobState outPath s) =
      ThreadOutcome.panicked
        { log := "Outputting to: " ++ outPath ++ "\n" ++ "Executing: ffmpeg " ++ cmdLine ++ "\n",
          progress := 0, running := true, child := none } := by
  simp [runThreadBody, startJobState]

/-- Model of `MyApp::stop_ffmpeg` (main.rs 633-681) with the spawned kill
thread run to completion. `killOk` models whether `child.kill()` succeeded
and `errMsg` the error text when it did not. The source logs a header, sets
`running` false, then in the kill thread: kills the child if present (logging
success or the kill error), clears the handle, resets progress to 0.0, and
logs a no-op message when nothing was killed. -/
def stop_ffmpeg (killOk : Bool) (errMsg : String) (s : JobState) : JobState :=
  let s1 := { s with log := s.log ++ "\nStopping FFmpeg process...\n", running := false }
  let killed := match s1.child with
    | some _ => killOk
    | none => false
  let s2 := match s1.child with
    | some _ =>
      if killOk then { s1 with log := s1.log ++ "Process terminated.\n" }
      else { s1 with log := s1.log ++ "Error killing process: " ++ errMsg ++ "\n" }
    | none => s1
  let s3 := { s2 with child := none, progress := 0 }
  if killed then s3 else { s3 with log := s3.log ++ "No active process to stop.\n" }

/-- A quiescent state after a finished job: no process handle, progress left
at 1 by the worker thread's terminal update. -/
def idleAfterJob : JobState :=
  { log := "", progress := 1, running := false, child := none }

/-- C8 counterexample: cancelling with no process handle is not free of other
state changes — it resets the progress field to 0 (here from 1). -/
theorem c8_counterexample :
    (stop_ffmpeg true "" idleAfterJob).progress ≠ idleAfterJob.progress := by
  decide

/-- C8 amended: cancelling with no process handle appends the header and the
no-op message to the log, leaves `running` false, leaves the handle absent,
and resets the progress field to 0 (rather than leaving it unchanged). -/
theorem c8_amended_cancel_without_handle (killOk : Bool) (errMsg : String) (s : JobState)
    (h : s.child = none) :
    stop_ffmpeg killOk errMsg s =
      { log := s.log ++ "\nStopping FFmpeg process...\n" ++ "No active process to stop.\n",
        progress := 0, running := false, child := none } := by
  simp [stop_ffmpeg, h]

/-- C8 amended witness. -/
theorem c8_amended_witness :
    stop_ffmpeg true "" idleAfterJob =
      { log := "" ++ "\nStopping FFmpeg process...\n" ++ "No active process to stop.\n",
        progress := 0, running := false, child := none } :=
  c8_amended_cancel_without_handle true "" idleAfterJob (by decide)

/-- The duration update of `MyApp::probe_duration` (main.rs 685-711).
`inputExists` models `Path::exists` on the input path, `probeOk` whether the
ffprobe invocation returned `Ok`, and `parsed` the combined utf8-decode and
`parse::<f32>` of its stdout; `d0` is the prior `self.duration`. When the
probe runs but its output fails to decode or parse, the source leaves the
duration unchanged. The frame-rate half of the function does not touch the
duration and is omitted. -/
def probe_duration_update (inputExists probeOk : Bool) (parsed : Option Rat) (d0 : Rat) : Rat :=
  if inputExists = false then 1
  else if probeOk then
    match parsed with
    | some d => max d 1
    | none => d0
  else 1

/-- C10: starting from a duration at least 1 (the only states the program
calls `probe_duration` in: the update loop guards on `duration == 1.0` and
every prior write keeps it at least 1), the stored duration stays at least 1
after the probe — in particular in the success case the parsed value is
clamped up by `max d 1`, even when the tool reports a duration below 1, zero
or negative — so the progress quotient divides by at least 1. -/
theorem c10_duration_at_least_one (inputExists probeOk : Bool) (parsed : Option Rat)
    (d0 : Rat) (h : 1 ≤ d0) :
    1 ≤ probe_duration_update inputExists probeOk parsed d0 ∧
    (inputExists = true → probeOk = true → ∀ d, parsed = some d →
      probe_duration_update inputExists probeOk parsed d0 = max d 1) := by
  constructor
  · unfold probe_duration_update
    cases inputExists <;> cases probeOk <;> cases parsed <;>
      simp_all [le_max_right]
  · intro hie hok d hd
    subst hd
    simp [probe_duration_update, hie, hok]

/-- C10 witness: a successful probe reporting half a second is clamped up to
1. -/
theorem c10_witness :
    1 ≤ probe_duration_update true true (some (1 / 2)) 1 ∧
    probe_duration_update true true (some (1 / 2)) 1 = max (1 / 2 : Rat) 1 :=
  ⟨(c10_duration_at_least_one true true (some (1 / 2)) 1 (by norm_num)).1,
   (c10_duration_at_least_one true true (some (1 / 2)) 1 (by norm_num)).2 rfl rfl
     (1 / 2) rfl⟩

/-! ### ffmpeg_utils.rs: `parse_timecode` -/

/-- Rust `str::split(sep)`, as chars: splits on every occurrence, keeping
empty segments, and yields one (empty) segment for the empty string. -/
def splitChar (sep : Char) : List Char → List (List Char)
  | [] => [[]]
  | c :: rest =>
    if c = sep then [] :: splitChar sep rest
    else
      match splitChar sep rest with
      | [] => [[c]]
      | h :: t => (c :: h) :: t

/-- Rust `str::parse::<f32>` modelled exactly over `Rat`, for plain decimal
literals (optional sign, digits, optional dot and fraction digits; at least
one digit). The special float syntaxes (`inf`, `nan`, exponents) and `f32`
rounding are not modelled: every value the claims touch is a short decimal
that `f32` represents exactly. -/
def parseUnsigned (l : List Char) : Option Rat :=
  match splitChar '.' l with
  | [ip] =>
    if ip ≠ [] ∧ ip.all Char.isDigit then some (valFrom 0 ip : Rat) else none
  | [ip, fp] =>
    if (ip ≠ [] ∨ fp ≠ []) ∧ ip.all Char.isDigit ∧ fp.all Char.isDigit then
      some ((valFrom 0 ip : Rat) + (valFrom 0 fp : Rat) / (10 : Rat) ^ fp.length)
    else none
  | _ => none

/-- Signed decimal parse with the `unwrap_or(0.0)` of the source. -/
def parseF32 (l : List Char) : Rat :=
  (match l with
   | '-' :: rest => (parseUnsigned rest).map (fun r => -r)
   | '+' :: rest => parseUnsigned rest
   | _ => parseUnsigned l).getD 0

/-- ffmpeg_utils.rs 3-8: split on `':'`; with exactly three segments combine
them as hours, minutes and seconds, each segment parsed with a 0.0 fallback;
otherwise return 0.0. -/
def parse_timecode (tc : String) : Rat :=
  let parts := splitChar ':' tc.data
  if parts.length = 3 then
    parseF32 (parts.getD 0 []) * 3600 + parseF32 (parts.getD 1 []) * 60 +
      parseF32 (parts.getD 2 [])
  else 0

/-- C9: `parse_timecode "00:01:30.50"` is 90.5, and any string whose
colon-separated segment count is not exactly three parses to 0. -/
theorem c9_parse_timecode_spec :
    parse_timecode "00:01:30.50" = 90.5 ∧
    ∀ s : String, (splitChar ':' s.data).length ≠ 3 → parse_timecode s = 0 := by
  constructor
  · have hs : splitChar ':' "00:01:30.50".data = [['0', '0'], ['0', '1'], ['3', '0', '.', '5', '0']] := by
      decide
    have h1 : parseF32 ['0', '0'] = ((0 : Nat) : Rat) := rfl
    have h2 : parseF32 ['0', '1'] = ((1 : Nat) : Rat) := rfl
    have h3 : parseF32 ['3', '0', '.', '5', '0'] =
        ((30 : Nat) : Rat) + ((50 : Nat) : Rat) / (10 : Rat) ^ 2 := rfl
    simp only [parse_timecode, hs]
    norm_num [h1, h2, h3]
  · intro s h
    simp [parse_timecode, h]

/-- C9 witness: the malformed-segment-count fallback at `"1:30"`. -/
theorem c9_witness :
    parse_timecode "00:01:30.50" = 90.5 ∧ parse_timecode "1:30" = 0 :=
  ⟨c9_parse_timecode_spec.1, c9_parse_timecode_spec.2 "1:30" (by decide)⟩

end FfmpegGui
